import Mathlib

/-!
Shallow embedding of the minion tracking engine (src/minion.py, src/detector.py,
src/utils.py, src/config.py).

Conventions of the embedding:
* Python floats are modelled as exact rationals (`ℚ`) for positions, timestamps
  and similarity scores.  The only genuinely irrational quantities are the
  Euclidean step length (`np.hypot`) and the values accumulated from it
  (`total_distance_traveled`, `max_speed`); those live in `ℝ` via `Real.sqrt`.
* Every comparison the source makes between two Euclidean distances (or between
  a distance and a constant tolerance) is encoded on squared distances, which
  is faithful because `x ↦ x ^ 2` is a strict order isomorphism on nonnegative
  reals; the halving bonus `distance *= 0.5` becomes `· * (1/4)` on squares.
* The OpenCV appearance machinery (`compute_hist`, `cv2.compareHist`) is
  external library code; it is abstracted as a `Vision` capability record
  supplying `computeHist` and `compareHist`, exactly the two operations the
  tracking logic consumes.
* Python's insertion-ordered `dict` of minions is an association list.
-/

namespace MM

abbrev Pos := ℚ × ℚ

inductive Side where
  | left
  | right
deriving DecidableEq, Repr

inductive MDir where
  | unknown
  | left
  | right
deriving DecidableEq, Repr

inductive Bridge where
  | unknown
  | top
  | bottom
deriving DecidableEq, Repr

/-! ### Configuration constants (src/config.py) -/

def PLAYER_SIDE : Side := Side.left

def MOVEMENT_MEMORY : ℚ := 5

def REID_TOLERANCE : ℚ := 80

def REID_MAX_TIME : ℚ := 10

def HIST_SIMILARITY_THRESHOLD : ℚ := 3 / 10

def MIN_LIFETIME : ℚ := 4 / 5

def MIN_DISTANCE_TRAVELED : ℝ := 40

def MASS_SPAWN_THRESHOLD : ℕ := 20

def STATIONARY_THRESHOLD : ℚ := 10

def PREDICTION_TIME : ℚ := 5

def PREDICTION_TOLERANCE : ℚ := 120

def MIN_POINTS_FOR_PREDICTION : ℕ := 5

def FRAME_WIDTH : ℚ := 1920

def FRAME_HEIGHT : ℚ := 1080

/-! ### Geometry helpers -/

/-- Squared Euclidean distance between two points; `np.hypot(a, b) ^ 2`. -/
def distSq (p q : Pos) : ℚ :=
  (p.1 - q.1) ^ 2 + (p.2 - q.2) ^ 2

/-- The Euclidean distance itself, `np.hypot(p.x - q.x, p.y - q.y)`. -/
noncomputable def euclidDist (p q : Pos) : ℝ :=
  Real.sqrt ((distSq p q : ℚ) : ℝ)

/-- Source `collections.deque(maxlen=80)`: appending to a full deque evicts the
oldest element. -/
def capPush {α : Type} (l : List α) (a : α) : List α :=
  if l.length < 80 then l ++ [a] else l.drop 1 ++ [a]

/-! ### The `Vision` capability: the OpenCV histogram machinery -/

/-- Abstraction of the appearance-signature library calls.  `computeHist`
stands for `Minion.compute_hist` (a pure function of frame, mask and
position), `compareHist` for `cv2.compareHist(·, ·, cv2.HISTCMP_CORREL)`. -/
structure Vision (Frame Mask Hist : Type) where
  computeHist : Frame → Mask → Pos → Hist
  compareHist : Hist → Hist → ℚ

/-! ### The Track entity (class `Minion`, src/minion.py) -/

structure Minion (Hist : Type) where
  id : ℕ
  positions : List Pos
  timestamps : List ℚ
  creation_time : ℚ
  last_seen : ℚ
  active : Bool
  hist : Hist
  spawn_side : Side
  current_side : Side
  general_direction : MDir
  optimal_bridge : Bridge
  frame_width : ℚ
  frame_height : ℚ
  total_distance_traveled : ℝ
  original_classification : Option Bool
  is_valid_minion : Bool
  consecutive_stationary_frames : ℕ
  max_speed : ℝ
  predicted_positions : List (ℚ × ℚ × ℚ)
  velocity : ℚ × ℚ
  acceleration : ℚ × ℚ

variable {Frame Mask Hist : Type}

/-- Source `self.positions[-1]` (the history is never empty in the source). -/
def lastPos (m : Minion Hist) : Pos :=
  m.positions.getLastD (0, 0)

/-- Source `self.timestamps[-1]`. -/
def lastTs (m : Minion Hist) : ℚ :=
  m.timestamps.getLastD 0

/-- Source `Minion.__init__`. -/
def Minion.init (V : Vision Frame Mask Hist) (id : ℕ) (position : Pos)
    (frame : Frame) (mask : Mask) (frame_width frame_height : ℚ)
    (timestamp : ℚ) : Minion Hist where
  id := id
  positions := [position]
  timestamps := [timestamp]
  creation_time := timestamp
  last_seen := timestamp
  active := true
  hist := V.computeHist frame mask position
  spawn_side := if position.1 < frame_width / 2 then Side.left else Side.right
  current_side := if position.1 < frame_width / 2 then Side.left else Side.right
  general_direction := MDir.unknown
  optimal_bridge := Bridge.unknown
  frame_width := frame_width
  frame_height := frame_height
  total_distance_traveled := 0
  original_classification := none
  is_valid_minion := false
  consecutive_stationary_frames := 0
  max_speed := 0
  predicted_positions := []
  velocity := (0, 0)
  acceleration := (0, 0)

/-- Source `Minion.classify_as_enemy`, factored through the direction value it reads. -/
def enemyFromDir (d : MDir) : Bool :=
  if d = MDir.unknown then false
  else
    match PLAYER_SIDE with
    | Side.left => decide (d = MDir.right)
    | Side.right => decide (d = MDir.left)

/-- Source `Minion.classify_as_enemy`. -/
def classifyAsEnemy (m : Minion Hist) : Bool :=
  enemyFromDir m.general_direction

/-- Source `Minion.similarity` (the `None` guards in the source are dead code:
`compute_hist` always returns an array). -/
def similarity (V : Vision Frame Mask Hist) (m : Minion Hist)
    (frame : Frame) (mask : Mask) (position : Pos) : ℚ :=
  V.compareHist m.hist (V.computeHist frame mask position)

/-- Source `Minion.calculate_direction_and_bridge`.  The source mutates
`general_direction` first and then reads the updated value when freezing
`original_classification`; the lets mirror that sequencing. -/
def calculateDirectionAndBridge (m : Minion Hist) : Minion Hist :=
  if m.positions.length < 5 then m
  else
    let firstPos := m.positions.headD (0, 0)
    let curPos := lastPos m
    let horizontal_movement := curPos.1 - firstPos.1
    let dir :=
      if 50 < |horizontal_movement| then
        if 0 < horizontal_movement then MDir.right else MDir.left
      else m.general_direction
    let oc :=
      if m.original_classification = none ∧ ¬ dir = MDir.unknown then
        some (enemyFromDir dir)
      else m.original_classification
    let side := if curPos.1 < m.frame_width / 2 then Side.left else Side.right
    let vertical_ratio := curPos.2 / m.frame_height
    let vertical_trend := curPos.2 - firstPos.2
    let br :=
      if vertical_ratio < 35 / 100 then Bridge.top
      else if 65 / 100 < vertical_ratio then Bridge.bottom
      else if vertical_trend ≤ 0 then Bridge.top else Bridge.bottom
    { m with
      general_direction := dir
      original_classification := oc
      current_side := side
      optimal_bridge := br }

/-- Source `Minion.calculate_prediction`.  `np.arange(0.1, 5.0, 0.1)` enumerates the
49 increments 0.1, 0.2, …, 4.9. -/
def calculatePrediction (m : Minion Hist) (current_time : ℚ) : Minion Hist :=
  if m.positions.length < MIN_POINTS_FOR_PREDICTION then m
  else
    let recent_positions := m.positions.drop (m.positions.length - 10)
    let recent_timestamps := m.timestamps.drop (m.timestamps.length - 10)
    let va :=
      if 3 ≤ recent_positions.length then
        let time_span := recent_timestamps.getLastD 0 - recent_timestamps.headD 0
        if 0 < time_span then
          let dx := (recent_positions.getLastD (0, 0)).1 - (recent_positions.headD (0, 0)).1
          let dy := (recent_positions.getLastD (0, 0)).2 - (recent_positions.headD (0, 0)).2
          let v : ℚ × ℚ := (dx / time_span, dy / time_span)
          let a :=
            if 6 ≤ recent_positions.length then
              let mid := recent_positions.length / 2
              let time_span_1 := recent_timestamps.getD mid 0 - recent_timestamps.headD 0
              let time_span_2 := recent_timestamps.getLastD 0 - recent_timestamps.getD mid 0
              if 0 < time_span_1 ∧ 0 < time_span_2 then
                let vel1x := ((recent_positions.getD mid (0, 0)).1 - (recent_positions.headD (0, 0)).1) / time_span_1
                let vel1y := ((recent_positions.getD mid (0, 0)).2 - (recent_positions.headD (0, 0)).2) / time_span_1
                let vel2x := ((recent_positions.getLastD (0, 0)).1 - (recent_positions.getD mid (0, 0)).1) / time_span_2
                let vel2y := ((recent_positions.getLastD (0, 0)).2 - (recent_positions.getD mid (0, 0)).2) / time_span_2
                ((vel2x - vel1x) / time_span_2, (vel2y - vel1y) / time_span_2)
              else m.acceleration
            else m.acceleration
          (v, a)
        else (m.velocity, m.acceleration)
      else (m.velocity, m.acceleration)
    let v := va.1
    let a := va.2
    let last_pos := lastPos m
    let preds :=
      if 1 < |v.1| ∨ 1 < |v.2| then
        (List.range 49).map (fun j =>
          let dt : ℚ := ((j : ℚ) + 1) / 10
          let px := last_pos.1 + v.1 * dt + (1 / 2) * a.1 * dt * dt
          let py := last_pos.2 + v.2 * dt + (1 / 2) * a.2 * dt * dt
          (max 0 (min m.frame_width px), max 0 (min m.frame_height py), current_time + dt))
      else []
    { m with velocity := v, acceleration := a, predicted_positions := preds }

/-- Source `Minion.get_predicted_position_at_time`. -/
def getPredictedPositionAtTime (m : Minion Hist) (target_time : ℚ) : Option Pos :=
  if m.predicted_positions = [] ∨ m.timestamps.length < 2 then
    match m.positions.getLast? with
    | some p => some p
    | none => none
  else
    let last_pos := lastPos m
    let dt := target_time - lastTs m
    some (last_pos.1 + m.velocity.1 * dt + (1 / 2) * m.acceleration.1 * dt * dt,
          last_pos.2 + m.velocity.2 * dt + (1 / 2) * m.acceleration.2 * dt * dt)

open Classical

/-- Source `Minion.validate_as_minion`.  The speed ceiling is checked on the real
`max_speed`; `Classical` supplies decidability of the real comparisons. -/
noncomputable def validateAsMinion (m : Minion Hist) (current_time : ℚ) : Bool :=
  if current_time - m.creation_time > MIN_LIFETIME ∧
      m.total_distance_traveled > MIN_DISTANCE_TRAVELED ∧
      m.consecutive_stationary_frames < 30 ∧
      m.max_speed < 200 then
    true
  else false

/-- Source `Minion.update_position`.  The stationary test `distance < 10` is encoded
as `distSq < 10 ^ 2`, equivalent since both sides are nonnegative. -/
noncomputable def updatePosition (V : Vision Frame Mask Hist) (m : Minion Hist)
    (position : Pos) (frame : Frame) (mask : Mask) (timestamp : ℚ) : Minion Hist :=
  let dsq := distSq (lastPos m) position
  let distance : ℝ := euclidDist (lastPos m) position
  let time_diff := timestamp - lastTs m
  let m1 :=
    if 0 < time_diff then
      { m with
        max_speed := max m.max_speed (distance / (time_diff : ℝ))
        consecutive_stationary_frames :=
          if dsq < STATIONARY_THRESHOLD ^ 2 then
            m.consecutive_stationary_frames + 1
          else 0 }
    else m
  let m2 :=
    { m1 with
      total_distance_traveled := m1.total_distance_traveled + distance
      positions := capPush m1.positions position
      timestamps := capPush m1.timestamps timestamp
      last_seen := timestamp
      active := true
      hist := V.computeHist frame mask position }
  calculatePrediction (calculateDirectionAndBridge m2) timestamp

/-- Source `Minion.get_strategy_info` result record. -/
structure StrategyInfo where
  likely_enemy : Bool
  direction : MDir
  optimal_bridge : Bridge
  current_side : Side
  velocity : ℚ × ℚ
  predicted_positions : List (ℚ × ℚ × ℚ)
deriving DecidableEq

/-- The frozen-or-derived enemy flag `get_strategy_info` computes. -/
def likelyEnemy (m : Minion Hist) : Bool :=
  match m.original_classification with
  | some b => b
  | none => classifyAsEnemy m

/-- Source `Minion.get_strategy_info`. -/
def getStrategyInfo (m : Minion Hist) : Option StrategyInfo :=
  if m.is_valid_minion = false then none
  else
    some
      { likely_enemy := likelyEnemy m
        direction := m.general_direction
        optimal_bridge := m.optimal_bridge
        current_side := m.current_side
        velocity := m.velocity
        predicted_positions := m.predicted_positions }

/-- A sequence of `update_position` calls, each carrying its observed
position, frame, mask and timestamp. -/
noncomputable def applyUpdates (V : Vision Frame Mask Hist) :
    Minion Hist → List (Pos × Frame × Mask × ℚ) → Minion Hist
  | m, [] => m
  | m, (p, f, k, t) :: rest => applyUpdates V (updatePosition V m p f k t) rest

/-! ### The Tracking Manager (class `MinionDetector`, src/detector.py) -/

/-- Source `self.minions` (an insertion-ordered `dict`) plus `self.next_minion_id`. -/
structure DetectorState (Hist : Type) where
  minions : List (ℕ × Minion Hist)
  next_minion_id : ℕ

/-- The effective (squared) association distance of a candidate to a track:
the raw distance to the last known position, quartered (i.e. the distance
halved) when the candidate falls within `PREDICTION_TOLERANCE` of the
point-in-time-predicted position. -/
def effDistSq (m : Minion Hist) (current_time : ℚ) (c : Pos) : ℚ :=
  let d := distSq (lastPos m) c
  match getPredictedPositionAtTime m current_time with
  | some pp => if distSq pp c < PREDICTION_TOLERANCE ^ 2 then d * (1 / 4) else d
  | none => d

/-- Accumulator of the inner candidate scan: `best_match_idx` (`-1` becomes
`none`), `min_distance` (squared) and `best_similarity`. -/
structure ScanAcc where
  bestIdx : Option ℕ
  minDistSq : ℚ
  bestSim : ℚ
deriving DecidableEq

/-- One step of the candidate scan inside
`_associate_detections_to_existing_minions`. -/
def scanStep (V : Vision Frame Mask Hist) (frame : Frame) (mask : Mask)
    (m : Minion Hist) (current_time : ℚ) (used : List ℕ)
    (acc : ScanAcc) (ic : ℕ × Pos) : ScanAcc :=
  if ic.1 ∈ used then acc
  else
    if effDistSq m current_time ic.2 < acc.minDistSq ∧
        HIST_SIMILARITY_THRESHOLD < similarity V m frame mask ic.2 ∧
        acc.bestSim < similarity V m frame mask ic.2 then
      ⟨some ic.1, effDistSq m current_time ic.2, similarity V m frame mask ic.2⟩
    else acc

/-- The full candidate scan for one track (`min_distance` starts at
`REID_TOLERANCE`, squared here). -/
def findBestMatch (V : Vision Frame Mask Hist) (frame : Frame) (mask : Mask)
    (m : Minion Hist) (current_time : ℚ) (detected : List Pos)
    (used : List ℕ) : ScanAcc :=
  detected.enum.foldl (scanStep V frame mask m current_time used)
    ⟨none, REID_TOLERANCE ^ 2, 0⟩

/-- Eligibility of candidate index `i` for a track, as the specification
describes it: unused, effective distance below the re-identification
tolerance, similarity above the floor. -/
def eligible (V : Vision Frame Mask Hist) (frame : Frame) (mask : Mask)
    (m : Minion Hist) (current_time : ℚ) (detected : List Pos)
    (used : List ℕ) (i : ℕ) : Prop :=
  i ∉ used ∧
    ∃ ic ∈ detected.enum, ic.1 = i ∧
      effDistSq m current_time ic.2 < REID_TOLERANCE ^ 2 ∧
      HIST_SIMILARITY_THRESHOLD < similarity V m frame mask ic.2

instance (V : Vision Frame Mask Hist) (frame : Frame) (mask : Mask)
    (m : Minion Hist) (current_time : ℚ) (detected : List Pos)
    (used : List ℕ) (i : ℕ) :
    Decidable (eligible V frame mask m current_time detected used i) := by
  unfold eligible
  infer_instance

/-- Source `_associate_detections_to_existing_minions`: greedy pass over the tracks
in insertion order, threading the set of used candidate indices.  Returns the
updated track map together with the used indices. -/
noncomputable def assocPass (V : Vision Frame Mask Hist) (frame : Frame)
    (mask : Mask) (detected : List Pos) (current_time : ℚ)
    (s : DetectorState Hist) : DetectorState Hist × List ℕ :=
  let step := fun (acc : List (ℕ × Minion Hist) × List ℕ) (im : ℕ × Minion Hist) =>
    if im.2.active = false then (acc.1 ++ [im], acc.2)
    else
      match (findBestMatch V frame mask im.2 current_time detected acc.2).bestIdx with
      | none => (acc.1 ++ [im], acc.2)
      | some i =>
          (acc.1 ++ [(im.1, updatePosition V im.2 (detected.getD i (0, 0)) frame mask current_time)],
           acc.2 ++ [i])
  let r := s.minions.foldl step ([], [])
  ({ minions := r.1, next_minion_id := s.next_minion_id }, r.2)

/-- Source `_is_mass_spawn_event`. -/
def isMassSpawnEvent (detected : List Pos) : Bool :=
  decide (MASS_SPAWN_THRESHOLD < detected.length)

/-- The enumerated loop body of `_create_new_minions` (the mass-spawn check
sits inside the loop in the source but reads only the full candidate list). -/
def createAux (V : Vision Frame Mask Hist) (detected : List Pos)
    (used : List ℕ) (frame : Frame) (mask : Mask) (current_time : ℚ) :
    List Pos → ℕ → DetectorState Hist → DetectorState Hist
  | [], _, s => s
  | c :: rest, i, s =>
    if i ∈ used then createAux V detected used frame mask current_time rest (i + 1) s
    else if isMassSpawnEvent detected then
      createAux V detected used frame mask current_time rest (i + 1) s
    else
      createAux V detected used frame mask current_time rest (i + 1)
        { minions := s.minions ++
            [(s.next_minion_id,
              Minion.init V s.next_minion_id c frame mask FRAME_WIDTH FRAME_HEIGHT current_time)],
          next_minion_id := s.next_minion_id + 1 }

/-- Source `_create_new_minions`. -/
def createNewMinions (V : Vision Frame Mask Hist) (detected : List Pos)
    (used : List ℕ) (frame : Frame) (mask : Mask) (current_time : ℚ)
    (s : DetectorState Hist) : DetectorState Hist :=
  createAux V detected used frame mask current_time detected 0 s

/-- Source `_update_minion_status`: mark tracks unseen longer than
`MOVEMENT_MEMORY` inactive, revalidate every track, evict tracks unseen
longer than `REID_MAX_TIME`. -/
noncomputable def updateMinionStatus (current_time : ℚ)
    (s : DetectorState Hist) : DetectorState Hist :=
  let stepped := s.minions.map (fun im =>
    let m1 :=
      if MOVEMENT_MEMORY < current_time - im.2.last_seen then
        { im.2 with active := false }
      else im.2
    (im.1, { m1 with is_valid_minion := validateAsMinion m1 current_time }))
  { minions := stepped.filter (fun im => decide (current_time - im.2.last_seen ≤ REID_MAX_TIME))
    next_minion_id := s.next_minion_id }

/-- Source `update_minion_tracking`: association, then spawning, then status. -/
noncomputable def updateMinionTracking (V : Vision Frame Mask Hist)
    (detected : List Pos) (frame : Frame) (mask : Mask) (current_time : ℚ)
    (s : DetectorState Hist) : DetectorState Hist :=
  let r := assocPass V frame mask detected current_time s
  updateMinionStatus current_time
    (createNewMinions V detected r.2 frame mask current_time r.1)

/-- Source `get_active_minions`. -/
def getActiveMinions (s : DetectorState Hist) : List (Minion Hist) :=
  (s.minions.map Prod.snd).filter (fun m => m.is_valid_minion && m.active)

/-- Source `get_enemy_minions`. -/
def getEnemyMinions (s : DetectorState Hist) : List (Minion Hist) :=
  (getActiveMinions s).filter (fun m =>
    match getStrategyInfo m with
    | some si => si.likely_enemy
    | none => false)

/-! ### Coordinate conversions (src/utils.py) -/

/-- Python `int(·)`: truncation toward zero. -/
def pyInt (q : ℚ) : ℤ :=
  if q < 0 then ⌈q⌉ else ⌊q⌋

/-- Source `ratio_to_pixels`. -/
def ratio_to_pixels (ratio_list : List (ℚ × ℚ)) (frame_width frame_height : ℤ) :
    List (ℤ × ℤ) :=
  ratio_list.map (fun r => (pyInt (r.1 * frame_width), pyInt (r.2 * frame_height)))

/-- Source `pixels_to_ratio`. -/
def pixels_to_ratio (pixel_list : List (ℤ × ℤ)) (frame_width frame_height : ℤ) :
    List (ℚ × ℚ) :=
  pixel_list.map (fun p => ((p.1 : ℚ) / (frame_width : ℚ), (p.2 : ℚ) / (frame_height : ℚ)))

/-- Number of candidate indices the spawn pass finds unused, walking the
candidate list with its running index exactly as `_create_new_minions` does. -/
def unusedCountAux (used : List ℕ) : List Pos → ℕ → ℕ
  | [], _ => 0
  | _ :: rest, i => (if i ∈ used then 0 else 1) + unusedCountAux used rest (i + 1)

/-- Number of unused candidates of a cycle. -/
def unusedCount (detected : List Pos) (used : List ℕ) : ℕ :=
  unusedCountAux used detected 0

/-! ### Concrete scenario instances used by counterexamples and witnesses -/

/-- A test fixture: a track as freshly created at time 0 at `p`, with an
explicitly given appearance signature; all fields are literals so that
kernel reduction never hits rational normalisation. -/
def mkTrack {Hist : Type} (id : ℕ) (h : Hist) (p : Pos) : Minion Hist where
  id := id
  positions := [p]
  timestamps := [0]
  creation_time := 0
  last_seen := 0
  active := true
  hist := h
  spawn_side := Side.left
  current_side := Side.left
  general_direction := MDir.unknown
  optimal_bridge := Bridge.unknown
  frame_width := FRAME_WIDTH
  frame_height := FRAME_HEIGHT
  total_distance_traveled := 0
  original_classification := none
  is_valid_minion := false
  consecutive_stationary_frames := 0
  max_speed := 0
  predicted_positions := []
  velocity := (0, 0)
  acceleration := (0, 0)

/-- A vision oracle whose signature of a region is the queried position
itself, with fixed similarity scores for the two candidate positions of the
greedy-association counterexample. -/
def visTwoCand : Vision Unit Unit Pos where
  computeHist := fun _ _ p => p
  compareHist := fun _ c =>
    if c = ((10 : ℚ), (0 : ℚ)) then 2 / 5
    else if c = ((20 : ℚ), (0 : ℚ)) then 9 / 10
    else 0

/-- The track of the greedy-association counterexample: at the origin. -/
def cexMinion : Minion Pos :=
  mkTrack 1 (0, 0) (0, 0)

/-- A vision oracle giving appearance similarity 0.6 to the track whose
stored signature is 1 and 0.2 to every other track. -/
def visAB : Vision Unit Unit ℚ where
  computeHist := fun _ _ _ => 0
  compareHist := fun h _ => if h = 1 then 3 / 5 else 1 / 5

/-- Track A of the two-track scenario: at the origin, signature 1. -/
def minA : Minion ℚ :=
  mkTrack 1 1 (0, 0)

/-- Track B of the two-track scenario: 30 px from A, signature 2. -/
def minB : Minion ℚ :=
  mkTrack 2 2 (30, 0)

/-- The two-track manager state of the association scenario. -/
def stateAB : DetectorState ℚ :=
  { minions := [(1, minA), (2, minB)], next_minion_id := 3 }

/-- A track with a frozen classification and a valid flag, for exercising
the strategic summary. -/
def mFrozen : Minion ℚ :=
  { mkTrack 1 0 (0, 0) with
    original_classification := some true
    is_valid_minion := true }

/-- A vision oracle whose similarity score is always 1 (a perfect appearance
match), for the re-identification scenario. -/
def visPerfect : Vision Unit Unit ℚ where
  computeHist := fun _ _ _ => 0
  compareHist := fun _ _ => 1

/-- Re-identification scenario: a single track created at (100, 100) at
time 0. -/
noncomputable def stateReid : DetectorState ℚ :=
  { minions := [(1, Minion.init visPerfect 1 (100, 100) () () FRAME_WIDTH FRAME_HEIGHT 0)],
    next_minion_id := 2 }

/-- The state after an empty cycle at t = 5.5: the track is unseen longer
than `MOVEMENT_MEMORY`, so the status pass marks it inactive but retains it
(5.5 ≤ `REID_MAX_TIME`). -/
noncomputable def stateReidAged : DetectorState ℚ :=
  updateMinionTracking visPerfect [] () () (11 / 2) stateReid

/-- A trivial vision oracle over rational signatures. -/
def visZero : Vision Unit Unit ℚ where
  computeHist := fun _ _ _ => 0
  compareHist := fun _ _ => 0

/-! ## Theorems -/

theorem distSq_nonneg (p q : Pos) : 0 ≤ distSq p q := by
  have h1 : (0:ℚ) ≤ (p.1 - q.1) ^ 2 := sq_nonneg _
  have h2 : (0:ℚ) ≤ (p.2 - q.2) ^ 2 := sq_nonneg _
  simpa [distSq] using add_nonneg h1 h2

theorem euclidDist_nonneg (p q : Pos) : 0 ≤ euclidDist p q :=
  Real.sqrt_nonneg _

/-! ### Fields untouched by the direction/bridge and prediction analyses -/

theorem cdb_positions (m : Minion Hist) :
    (calculateDirectionAndBridge m).positions = m.positions := by
  unfold calculateDirectionAndBridge
  split <;> rfl

theorem cdb_timestamps (m : Minion Hist) :
    (calculateDirectionAndBridge m).timestamps = m.timestamps := by
  unfold calculateDirectionAndBridge
  split <;> rfl

theorem cdb_total (m : Minion Hist) :
    (calculateDirectionAndBridge m).total_distance_traveled = m.total_distance_traveled := by
  unfold calculateDirectionAndBridge
  split <;> rfl

theorem cdb_max_speed (m : Minion Hist) :
    (calculateDirectionAndBridge m).max_speed = m.max_speed := by
  unfold calculateDirectionAndBridge
  split <;> rfl

theorem cdb_consecutive (m : Minion Hist) :
    (calculateDirectionAndBridge m).consecutive_stationary_frames
      = m.consecutive_stationary_frames := by
  unfold calculateDirectionAndBridge
  split <;> rfl

theorem cdb_last_seen (m : Minion Hist) :
    (calculateDirectionAndBridge m).last_seen = m.last_seen := by
  unfold calculateDirectionAndBridge
  split <;> rfl

theorem cdb_active (m : Minion Hist) :
    (calculateDirectionAndBridge m).active = m.active := by
  unfold calculateDirectionAndBridge
  split <;> rfl

theorem calcPred_positions (m : Minion Hist) (t : ℚ) :
    (calculatePrediction m t).positions = m.positions := by
  unfold calculatePrediction
  split <;> rfl

theorem calcPred_timestamps (m : Minion Hist) (t : ℚ) :
    (calculatePrediction m t).timestamps = m.timestamps := by
  unfold calculatePrediction
  split <;> rfl

theorem calcPred_total (m : Minion Hist) (t : ℚ) :
    (calculatePrediction m t).total_distance_traveled = m.total_distance_traveled := by
  unfold calculatePrediction
  split <;> rfl

theorem calcPred_max_speed (m : Minion Hist) (t : ℚ) :
    (calculatePrediction m t).max_speed = m.max_speed := by
  unfold calculatePrediction
  split <;> rfl

theorem calcPred_consecutive (m : Minion Hist) (t : ℚ) :
    (calculatePrediction m t).consecutive_stationary_frames
      = m.consecutive_stationary_frames := by
  unfold calculatePrediction
  split <;> rfl

theorem calcPred_last_seen (m : Minion Hist) (t : ℚ) :
    (calculatePrediction m t).last_seen = m.last_seen := by
  unfold calculatePrediction
  split <;> rfl

theorem calcPred_active (m : Minion Hist) (t : ℚ) :
    (calculatePrediction m t).active = m.active := by
  unfold calculatePrediction
  split <;> rfl

theorem calcPred_oc (m : Minion Hist) (t : ℚ) :
    (calculatePrediction m t).original_classification = m.original_classification := by
  unfold calculatePrediction
  split <;> rfl

theorem calcPred_direction (m : Minion Hist) (t : ℚ) :
    (calculatePrediction m t).general_direction = m.general_direction := by
  unfold calculatePrediction
  split <;> rfl

/-! ### Unfolding laws of `updatePosition` -/

theorem up_positions (V : Vision Frame Mask Hist) (m : Minion Hist) (p : Pos)
    (f : Frame) (k : Mask) (t : ℚ) :
    (updatePosition V m p f k t).positions = capPush m.positions p := by
  unfold updatePosition
  simp only [calcPred_positions, cdb_positions]
  split <;> rfl

theorem up_timestamps (V : Vision Frame Mask Hist) (m : Minion Hist) (p : Pos)
    (f : Frame) (k : Mask) (t : ℚ) :
    (updatePosition V m p f k t).timestamps = capPush m.timestamps t := by
  unfold updatePosition
  simp only [calcPred_timestamps, cdb_timestamps]
  split <;> rfl

theorem up_total (V : Vision Frame Mask Hist) (m : Minion Hist) (p : Pos)
    (f : Frame) (k : Mask) (t : ℚ) :
    (updatePosition V m p f k t).total_distance_traveled
      = m.total_distance_traveled + euclidDist (lastPos m) p := by
  unfold updatePosition
  simp only [calcPred_total, cdb_total]
  split <;> rfl

theorem up_last_seen (V : Vision Frame Mask Hist) (m : Minion Hist) (p : Pos)
    (f : Frame) (k : Mask) (t : ℚ) :
    (updatePosition V m p f k t).last_seen = t := by
  unfold updatePosition
  simp only [calcPred_last_seen, cdb_last_seen]

theorem up_active (V : Vision Frame Mask Hist) (m : Minion Hist) (p : Pos)
    (f : Frame) (k : Mask) (t : ℚ) :
    (updatePosition V m p f k t).active = true := by
  unfold updatePosition
  simp only [calcPred_active, cdb_active]

theorem applyUpdates_total_mono (V : Vision Frame Mask Hist) (m : Minion Hist)
    (upds : List (Pos × Frame × Mask × ℚ)) :
    m.total_distance_traveled ≤ (applyUpdates V m upds).total_distance_traveled := by
  induction upds generalizing m with
  | nil => exact le_refl _
  | cons u rest ih =>
    obtain ⟨p, f, k, t⟩ := u
    simp only [applyUpdates]
    refine le_trans ?_ (ih (updatePosition V m p f k t))
    rw [up_total]
    exact le_add_of_nonneg_right (euclidDist_nonneg _ _)

/-- C7: `total_distance_traveled` is monotonically non-decreasing: each
`update_position` adds exactly the (nonnegative) Euclidean distance between
the previous and the new position, so it never decreases across any sequence
of updates. -/
theorem C7_total_distance_monotone (V : Vision Frame Mask Hist) :
    (∀ (m : Minion Hist) (p : Pos) (f : Frame) (k : Mask) (t : ℚ),
        (updatePosition V m p f k t).total_distance_traveled
          = m.total_distance_traveled + euclidDist (lastPos m) p ∧
        0 ≤ euclidDist (lastPos m) p ∧
        m.total_distance_traveled ≤ (updatePosition V m p f k t).total_distance_traveled) ∧
    (∀ (m : Minion Hist) (upds : List (Pos × Frame × Mask × ℚ)),
        m.total_distance_traveled ≤ (applyUpdates V m upds).total_distance_traveled) := by
  constructor
  · intro m p f k t
    refine ⟨up_total V m p f k t, euclidDist_nonneg _ _, ?_⟩
    rw [up_total]
    exact le_add_of_nonneg_right (euclidDist_nonneg _ _)
  · exact fun m upds => applyUpdates_total_mono V m upds

theorem capPush_length {α : Type} (l : List α) (a : α) :
    (capPush l a).length = if l.length < 80 then l.length + 1 else l.length := by
  unfold capPush
  split
  · simp
  · rename_i h
    have h80 : 80 ≤ l.length := le_of_not_lt h
    simp only [List.length_append, List.length_drop, List.length_singleton]
    omega

theorem applyUpdates_len_inv (V : Vision Frame Mask Hist) :
    ∀ (upds : List (Pos × Frame × Mask × ℚ)) (m : Minion Hist),
      m.positions.length = m.timestamps.length → m.positions.length ≤ 80 →
      (applyUpdates V m upds).positions.length
          = (applyUpdates V m upds).timestamps.length ∧
        (applyUpdates V m upds).positions.length ≤ 80 := by
  intro upds
  induction upds with
  | nil => exact fun m h1 h2 => ⟨h1, h2⟩
  | cons u rest ih =>
    intro m h1 h2
    obtain ⟨p, f, k, t⟩ := u
    simp only [applyUpdates]
    apply ih
    · rw [up_positions, up_timestamps, capPush_length, capPush_length, h1]
    · rw [up_positions, capPush_length]
      split <;> omega

/-- C6: for a freshly created track and after any sequence of updates,
`positions` and `timestamps` always have equal length and never exceed the
capacity of 80 (the capped push evicts the oldest entry on overflow). -/
theorem C6_bounded_parallel_histories (V : Vision Frame Mask Hist) (id : ℕ)
    (p : Pos) (f : Frame) (k : Mask) (w h t : ℚ)
    (upds : List (Pos × Frame × Mask × ℚ)) :
    (applyUpdates V (Minion.init V id p f k w h t) upds).positions.length
        = (applyUpdates V (Minion.init V id p f k w h t) upds).timestamps.length ∧
      (applyUpdates V (Minion.init V id p f k w h t) upds).positions.length ≤ 80 :=
  applyUpdates_len_inv V upds _ rfl (by simp [Minion.init])

/-! ### The frozen original classification -/

theorem cdb_oc_of_some (m : Minion Hist) (b : Bool)
    (h : m.original_classification = some b) :
    (calculateDirectionAndBridge m).original_classification = some b := by
  unfold calculateDirectionAndBridge
  split
  · exact h
  · simp [h]

theorem up_oc_of_some (V : Vision Frame Mask Hist) (m : Minion Hist) (p : Pos)
    (f : Frame) (k : Mask) (t : ℚ) (b : Bool)
    (h : m.original_classification = some b) :
    (updatePosition V m p f k t).original_classification = some b := by
  unfold updatePosition
  simp only [calcPred_oc]
  apply cdb_oc_of_some
  split <;> exact h

theorem applyUpdates_oc_of_some (V : Vision Frame Mask Hist)
    (upds : List (Pos × Frame × Mask × ℚ)) :
    ∀ (m : Minion Hist) (b : Bool), m.original_classification = some b →
      (applyUpdates V m upds).original_classification = some b := by
  induction upds with
  | nil => exact fun m b h => h
  | cons u rest ih =>
    intro m b h
    obtain ⟨p, f, k, t⟩ := u
    simp only [applyUpdates]
    exact ih _ b (up_oc_of_some V m p f k t b h)

theorem getStrategyInfo_frozen (m : Minion Hist) (b : Bool) (si : StrategyInfo)
    (hoc : m.original_classification = some b)
    (hsi : getStrategyInfo m = some si) : si.likely_enemy = b := by
  unfold getStrategyInfo at hsi
  split at hsi
  · exact absurd hsi (by simp)
  · cases hsi
    simp [likelyEnemy, hoc]

/-- C5: once `original_classification` is set it is never overwritten by any
subsequent update, and the strategic summary reports exactly this frozen
value as `likely_enemy`, never recomputing from the current direction. -/
theorem C5_frozen_original_classification (V : Vision Frame Mask Hist) :
    (∀ (m : Minion Hist) (b : Bool) (upds : List (Pos × Frame × Mask × ℚ)),
        m.original_classification = some b →
        (applyUpdates V m upds).original_classification = some b) ∧
    (∀ (m : Minion Hist) (b : Bool) (si : StrategyInfo),
        m.original_classification = some b → getStrategyInfo m = some si →
        si.likely_enemy = b) :=
  ⟨fun m b upds h => applyUpdates_oc_of_some V upds m b h,
   fun m b si hoc hsi => getStrategyInfo_frozen m b si hoc hsi⟩

theorem C5_witness :
    mFrozen.original_classification = some true ∧
    (applyUpdates visZero mFrozen [((5, 5), (), (), 1)]).original_classification
        = some true ∧
    (⟨true, MDir.unknown, Bridge.unknown, Side.left, (0, 0), []⟩ :
        StrategyInfo).likely_enemy = true :=
  ⟨rfl,
   (C5_frozen_original_classification visZero).1 mFrozen true [((5, 5), (), (), 1)] rfl,
   (C5_frozen_original_classification visZero).2 mFrozen true _ rfl rfl⟩

/-! ### Direction stays unknown below five samples -/

theorem cdb_direction_of_short (m : Minion Hist) (h : m.positions.length < 5) :
    (calculateDirectionAndBridge m).general_direction = m.general_direction := by
  unfold calculateDirectionAndBridge
  rw [if_pos h]

theorem capPush_length_lt (l : List Pos) (p : Pos) (h : (capPush l p).length < 5) :
    l.length < 5 := by
  rw [capPush_length] at h
  revert h
  split <;> omega

theorem up_direction_of_short (V : Vision Frame Mask Hist) (m : Minion Hist)
    (p : Pos) (f : Frame) (k : Mask) (t : ℚ)
    (h : (updatePosition V m p f k t).positions.length < 5) :
    (updatePosition V m p f k t).general_direction = m.general_direction := by
  rw [up_positions] at h
  unfold updatePosition
  simp only [calcPred_direction]
  split
  · rw [cdb_direction_of_short _ h]
  · rw [cdb_direction_of_short _ h]

theorem applyUpdates_direction_unknown (V : Vision Frame Mask Hist)
    (upds : List (Pos × Frame × Mask × ℚ)) :
    ∀ (m : Minion Hist),
      (m.positions.length < 5 → m.general_direction = MDir.unknown) →
      (applyUpdates V m upds).positions.length < 5 →
      (applyUpdates V m upds).general_direction = MDir.unknown := by
  induction upds with
  | nil => exact fun m hm h => hm h
  | cons u rest ih =>
    intro m hm h
    obtain ⟨p, f, k, t⟩ := u
    simp only [applyUpdates] at h ⊢
    refine ih _ (fun hlen => ?_) h
    rw [up_direction_of_short V m p f k t hlen]
    exact hm (capPush_length_lt m.positions p (by rwa [up_positions] at hlen))

/-- C8: a track whose recorded history holds fewer than 5 samples always
reports direction `unknown`: the field starts `unknown` at creation and the
direction analysis is a no-op below 5 samples. -/
theorem C8_direction_unknown_below_five (V : Vision Frame Mask Hist) (id : ℕ)
    (p : Pos) (f : Frame) (k : Mask) (w h t : ℚ)
    (upds : List (Pos × Frame × Mask × ℚ))
    (hlen : (applyUpdates V (Minion.init V id p f k w h t) upds).positions.length < 5) :
    (applyUpdates V (Minion.init V id p f k w h t) upds).general_direction
      = MDir.unknown :=
  applyUpdates_direction_unknown V upds _ (fun _ => rfl) hlen

theorem C8_witness :
    (applyUpdates visZero (Minion.init visZero 1 (0, 0) () () FRAME_WIDTH FRAME_HEIGHT 0)
        [((10, 0), (), (), 1)]).positions.length < 5 ∧
    (applyUpdates visZero (Minion.init visZero 1 (0, 0) () () FRAME_WIDTH FRAME_HEIGHT 0)
        [((10, 0), (), (), 1)]).general_direction = MDir.unknown := by
  have hlen : (applyUpdates visZero
      (Minion.init visZero 1 (0, 0) () () FRAME_WIDTH FRAME_HEIGHT 0)
      [((10, 0), (), (), 1)]).positions.length < 5 := by
    simp only [applyUpdates, up_positions]
    norm_num [capPush, Minion.init]
  exact ⟨hlen,
    C8_direction_unknown_below_five visZero 1 (0, 0) () () FRAME_WIDTH FRAME_HEIGHT 0
      [((10, 0), (), (), 1)] hlen⟩

/-! ### Totality of the update under non-advancing timestamps -/

/-- C10: `update_position` is total; when the timestamp does not strictly
advance, the speed computation is skipped (`max_speed` and the stationary
counter are unchanged), while the step distance is still accumulated, the
histories still appended, and `last_seen`/`active` still set. -/
theorem C10_update_totality_guard (V : Vision Frame Mask Hist) (m : Minion Hist)
    (p : Pos) (f : Frame) (k : Mask) (t : ℚ) (h : t ≤ lastTs m) :
    (updatePosition V m p f k t).max_speed = m.max_speed ∧
    (updatePosition V m p f k t).consecutive_stationary_frames
        = m.consecutive_stationary_frames ∧
    (updatePosition V m p f k t).total_distance_traveled
        = m.total_distance_traveled + euclidDist (lastPos m) p ∧
    (updatePosition V m p f k t).positions = capPush m.positions p ∧
    (updatePosition V m p f k t).timestamps = capPush m.timestamps t ∧
    (updatePosition V m p f k t).last_seen = t ∧
    (updatePosition V m p f k t).active = true := by
  have hneg : ¬ 0 < t - lastTs m := by
    simp only [not_lt]
    exact sub_nonpos.mpr h
  refine ⟨?_, ?_, up_total V m p f k t, up_positions V m p f k t,
    up_timestamps V m p f k t, up_last_seen V m p f k t, up_active V m p f k t⟩
  · unfold updatePosition
    simp only [calcPred_max_speed, cdb_max_speed]
    rw [if_neg hneg]
  · unfold updatePosition
    simp only [calcPred_consecutive, cdb_consecutive]
    rw [if_neg hneg]

theorem C10_witness :
    (0 : ℚ) ≤ lastTs (Minion.init visZero 1 (0, 0) () () FRAME_WIDTH FRAME_HEIGHT 0) ∧
    (updatePosition visZero (Minion.init visZero 1 (0, 0) () () FRAME_WIDTH FRAME_HEIGHT 0)
        (3, 4) () () 0).max_speed
      = (Minion.init visZero 1 (0, 0) () () FRAME_WIDTH FRAME_HEIGHT 0).max_speed ∧
    (updatePosition visZero (Minion.init visZero 1 (0, 0) () () FRAME_WIDTH FRAME_HEIGHT 0)
        (3, 4) () () 0).total_distance_traveled
      = (Minion.init visZero 1 (0, 0) () () FRAME_WIDTH FRAME_HEIGHT 0).total_distance_traveled
          + euclidDist (lastPos (Minion.init visZero 1 (0, 0) () () FRAME_WIDTH FRAME_HEIGHT 0)) (3, 4) ∧
    (updatePosition visZero (Minion.init visZero 1 (0, 0) () () FRAME_WIDTH FRAME_HEIGHT 0)
        (3, 4) () () 0).active = true := by
  have h := C10_update_totality_guard visZero
    (Minion.init visZero 1 (0, 0) () () FRAME_WIDTH FRAME_HEIGHT 0) (3, 4) () () 0
    (by decide)
  exact ⟨by decide, h.1, h.2.2.1, h.2.2.2.2.2.2⟩

/-! ### The consumer queries -/

theorem getActive_mem (s : DetectorState Hist) (m : Minion Hist) :
    m ∈ getActiveMinions s ↔
      m ∈ s.minions.map Prod.snd ∧ m.is_valid_minion = true ∧ m.active = true := by
  unfold getActiveMinions
  rw [List.mem_filter]
  simp [Bool.and_eq_true, and_assoc]

theorem enemyPred_of_valid (m : Minion Hist) (hv : m.is_valid_minion = true) :
    (match getStrategyInfo m with
      | some si => si.likely_enemy
      | none => false) = likelyEnemy m := by
  unfold getStrategyInfo
  rw [if_neg (by simp [hv])]

/-- C9: `get_active_minions` returns exactly the tracks that are both valid
and active; `get_enemy_minions` returns exactly the active tracks whose
frozen-or-derived classification (`likelyEnemy`) is enemy.  Both are defined
as pure functions of the manager state: they read and never write. -/
theorem C9_consumer_queries :
    (∀ (s : DetectorState Hist) (m : Minion Hist),
        m ∈ getActiveMinions s ↔
          m ∈ s.minions.map Prod.snd ∧ m.is_valid_minion = true ∧ m.active = true) ∧
    (∀ (s : DetectorState Hist) (m : Minion Hist),
        m ∈ getEnemyMinions s ↔ m ∈ getActiveMinions s ∧ likelyEnemy m = true) := by
  refine ⟨getActive_mem, fun s m => ?_⟩
  unfold getEnemyMinions
  rw [List.mem_filter]
  constructor
  · rintro ⟨hm, hp⟩
    have hv := ((getActive_mem s m).mp hm).2.1
    rw [enemyPred_of_valid m hv] at hp
    exact ⟨hm, hp⟩
  · rintro ⟨hm, hp⟩
    have hv := ((getActive_mem s m).mp hm).2.1
    rw [enemyPred_of_valid m hv]
    exact ⟨hm, hp⟩

/-! ### The spawn pass -/

theorem createAux_mass (V : Vision Frame Mask Hist) (detected : List Pos)
    (used : List ℕ) (f : Frame) (k : Mask) (t : ℚ)
    (h : isMassSpawnEvent detected = true) :
    ∀ (l : List Pos) (i : ℕ) (s : DetectorState Hist),
      createAux V detected used f k t l i s = s := by
  intro l
  induction l with
  | nil => intro i s; rfl
  | cons c rest ih =>
    intro i s
    unfold createAux
    rw [h]
    split
    · exact ih _ _
    · exact ih _ _

theorem createAux_keys (V : Vision Frame Mask Hist) (detected : List Pos)
    (used : List ℕ) (f : Frame) (k : Mask) (t : ℚ)
    (h : isMassSpawnEvent detected = false) :
    ∀ (l : List Pos) (i : ℕ) (s : DetectorState Hist),
      (createAux V detected used f k t l i s).next_minion_id
          = s.next_minion_id + unusedCountAux used l i ∧
        (createAux V detected used f k t l i s).minions.map Prod.fst
          = s.minions.map Prod.fst ++
              List.range' s.next_minion_id (unusedCountAux used l i) := by
  intro l
  induction l with
  | nil => intro i s; simp [createAux, unusedCountAux]
  | cons c rest ih =>
    intro i s
    unfold createAux unusedCountAux
    rw [h]
    by_cases hi : i ∈ used
    · rw [if_pos hi, if_pos hi]
      simpa using ih (i + 1) s
    · rw [if_neg hi, if_neg hi, if_neg (by simp : ¬ (false = true))]
      obtain ⟨h1, h2⟩ := ih (i + 1)
        { minions := s.minions ++
            [(s.next_minion_id,
              Minion.init V s.next_minion_id c f k FRAME_WIDTH FRAME_HEIGHT t)],
          next_minion_id := s.next_minion_id + 1 }
      constructor
      · rw [h1]
        show s.next_minion_id + 1 + unusedCountAux used rest (i + 1)
          = s.next_minion_id + (1 + unusedCountAux used rest (i + 1))
        omega
      · rw [h2]
        have hr : List.range' s.next_minion_id (1 + unusedCountAux used rest (i + 1))
            = s.next_minion_id :: List.range' (s.next_minion_id + 1)
                (unusedCountAux used rest (i + 1)) := by
          rw [Nat.add_comm 1 _]
          exact List.range'_succ _ _ _
        rw [hr]
        simp

/-- C3: when the candidate count strictly exceeds the mass-spawn threshold
the spawn pass creates nothing; otherwise every unused candidate becomes a
new track, with identifiers drawn consecutively from the strictly increasing
counter, and (given the manager invariant that existing keys are below the
counter) the new identifiers never collide with existing ones. -/
theorem C3_spawn_pass (V : Vision Frame Mask Hist) :
    (∀ (detected : List Pos) (used : List ℕ) (f : Frame) (k : Mask) (t : ℚ)
        (s : DetectorState Hist), MASS_SPAWN_THRESHOLD < detected.length →
        createNewMinions V detected used f k t s = s) ∧
    (∀ (detected : List Pos) (used : List ℕ) (f : Frame) (k : Mask) (t : ℚ)
        (s : DetectorState Hist), detected.length ≤ MASS_SPAWN_THRESHOLD →
        (createNewMinions V detected used f k t s).next_minion_id
            = s.next_minion_id + unusedCount detected used ∧
          (createNewMinions V detected used f k t s).minions.map Prod.fst
            = s.minions.map Prod.fst ++
                List.range' s.next_minion_id (unusedCount detected used)) ∧
    (∀ (detected : List Pos) (used : List ℕ) (s : DetectorState Hist),
        (∀ j ∈ s.minions.map Prod.fst, j < s.next_minion_id) →
        ∀ j ∈ List.range' s.next_minion_id (unusedCount detected used),
          j ∉ s.minions.map Prod.fst) := by
  refine ⟨fun detected used f k t s h => ?_, fun detected used f k t s h => ?_,
    fun detected used s hb j hj hmem => ?_⟩
  · exact createAux_mass V detected used f k t
      (by simpa [isMassSpawnEvent] using h) detected 0 s
  · exact createAux_keys V detected used f k t
      (by simpa [isMassSpawnEvent] using Nat.not_lt.mpr h) detected 0 s
  · have hge : s.next_minion_id ≤ j := (List.mem_range'_1.mp hj).1
    exact absurd (hb j hmem) (Nat.not_lt.mpr hge)

theorem C3_witness :
    MASS_SPAWN_THRESHOLD <
        (List.replicate 21 ((0 : ℚ), (0 : ℚ))).length ∧
    createNewMinions visAB (List.replicate 21 ((0 : ℚ), (0 : ℚ))) [] () () 1 stateAB
        = stateAB ∧
    ([((1 : ℚ), (1 : ℚ)), ((2 : ℚ), (2 : ℚ))].length ≤ MASS_SPAWN_THRESHOLD ∧
      (createNewMinions visAB [((1 : ℚ), (1 : ℚ)), ((2 : ℚ), (2 : ℚ))] [0] () () 1 stateAB).minions.map Prod.fst
        = stateAB.minions.map Prod.fst ++
            List.range' stateAB.next_minion_id
              (unusedCount [((1 : ℚ), (1 : ℚ)), ((2 : ℚ), (2 : ℚ))] [0])) :=
  ⟨by decide,
   (C3_spawn_pass visAB).1 _ [] () () 1 stateAB (by decide),
   by decide,
   ((C3_spawn_pass visAB).2.1 _ [0] () () 1 stateAB (by decide)).2⟩

/-! ### Coordinate round-trip -/

/-- C4 counterexample: the round trip is NOT the identity within
floating-point tolerance.  For the valid ratio (1/2, 1/2) on a 3×3 frame the
pixel conversion truncates 1.5 to 1, and converting back yields (1/3, 1/3),
an error of 1/6 — far beyond any floating-point tolerance. -/
theorem C4_roundtrip_counterexample :
    pixels_to_ratio (ratio_to_pixels [((1 : ℚ) / 2, (1 : ℚ) / 2)] 3 3) 3 3
        = [((1 : ℚ) / 3, (1 : ℚ) / 3)] ∧
    ¬ |(1 : ℚ) / 2 - (1 : ℚ) / 3| ≤ 1 / 100 := by
  constructor
  · norm_num [pixels_to_ratio, ratio_to_pixels, pyInt]
  · rw [abs_of_nonneg (by norm_num)]
    norm_num

theorem pyInt_floor_bounds (r : ℚ) (w : ℤ) (hr : 0 ≤ r) (hw : 0 < w) :
    0 ≤ r - (pyInt (r * w) : ℚ) / (w : ℚ) ∧
      r - (pyInt (r * w) : ℚ) / (w : ℚ) < 1 / (w : ℚ) := by
  have hwq : (0 : ℚ) < (w : ℚ) := by exact_mod_cast hw
  have hx : (0 : ℚ) ≤ r * w := mul_nonneg hr hwq.le
  have hpy : pyInt (r * w) = ⌊r * (w : ℚ)⌋ := by
    unfold pyInt
    rw [if_neg (not_lt.mpr hx)]
  rw [hpy]
  constructor
  · rw [sub_nonneg, div_le_iff₀ hwq]
    exact Int.floor_le _
  · rw [sub_lt_iff_lt_add, div_add_div_same, lt_div_iff₀ hwq]
    have := Int.lt_floor_add_one (r * (w : ℚ))
    linarith

/-- C4 amended: for every ratio pair in [0,1] × [0,1] and positive integral
frame dimensions, `ratio_to_pixels` followed by `pixels_to_ratio` returns
the original pair up to the pixel quantization error: the result
undershoots each coordinate by at least 0 and strictly less than one pixel
width (1/w horizontally, 1/h vertically) — not within mere floating-point
tolerance. -/
theorem C4_roundtrip_quantized (rx ry : ℚ) (w h : ℤ)
    (hrx0 : 0 ≤ rx) (hrx1 : rx ≤ 1) (hry0 : 0 ≤ ry) (hry1 : ry ≤ 1)
    (hw : 0 < w) (hh : 0 < h) (a b : ℚ)
    (heq : pixels_to_ratio (ratio_to_pixels [(rx, ry)] w h) w h = [(a, b)]) :
    0 ≤ rx - a ∧ rx - a < 1 / (w : ℚ) ∧ 0 ≤ ry - b ∧ ry - b < 1 / (h : ℚ) := by
  have hab : a = (pyInt (rx * w) : ℚ) / (w : ℚ) ∧ b = (pyInt (ry * h) : ℚ) / (h : ℚ) := by
    simp only [pixels_to_ratio, ratio_to_pixels, List.map_cons, List.map_nil,
      List.cons.injEq, Prod.mk.injEq, and_true] at heq
    exact ⟨heq.1.symm, heq.2.symm⟩
  obtain ⟨hx1, hx2⟩ := pyInt_floor_bounds rx w hrx0 hw
  obtain ⟨hy1, hy2⟩ := pyInt_floor_bounds ry h hry0 hh
  rw [hab.1, hab.2]
  exact ⟨hx1, hx2, hy1, hy2⟩

theorem C4_witness :
    (0 : ℚ) ≤ 1 / 2 ∧ (1 : ℚ) / 2 ≤ 1 ∧ (0 : ℤ) < 2 ∧
    0 ≤ (1 : ℚ) / 2 - 1 / 2 ∧ (1 : ℚ) / 2 - 1 / 2 < 1 / ((2 : ℤ) : ℚ) ∧
    0 ≤ (1 : ℚ) / 2 - 1 / 2 ∧ (1 : ℚ) / 2 - 1 / 2 < 1 / ((2 : ℤ) : ℚ) :=
  ⟨by norm_num, by norm_num, by norm_num,
   C4_roundtrip_quantized (1 / 2) (1 / 2) 2 2 (by norm_num) (by norm_num)
     (by norm_num) (by norm_num) (by norm_num) (by norm_num) (1 / 2) (1 / 2)
     (by norm_num [pixels_to_ratio, ratio_to_pixels, pyInt])⟩

/-! ### The greedy association scan -/

theorem scanStep_isSome (V : Vision Frame Mask Hist) (f : Frame) (k : Mask)
    (m : Minion Hist) (t : ℚ) (used : List ℕ) (acc : ScanAcc) (ic : ℕ × Pos)
    (h : acc.bestIdx.isSome = true) :
    (scanStep V f k m t used acc ic).bestIdx.isSome = true := by
  unfold scanStep
  split
  · exact h
  · split
    · rfl
    · exact h

theorem foldl_scanStep_isSome (V : Vision Frame Mask Hist) (f : Frame) (k : Mask)
    (m : Minion Hist) (t : ℚ) (used : List ℕ) :
    ∀ (lp : List (ℕ × Pos)) (acc : ScanAcc), acc.bestIdx.isSome = true →
      (lp.foldl (scanStep V f k m t used) acc).bestIdx.isSome = true := by
  intro lp
  induction lp with
  | nil => exact fun acc h => h
  | cons ic rest ih =>
    intro acc h
    exact ih _ (scanStep_isSome V f k m t used acc ic h)

theorem foldl_scanStep_sound (V : Vision Frame Mask Hist) (f : Frame) (k : Mask)
    (m : Minion Hist) (t : ℚ) (detected : List Pos) (used : List ℕ) :
    ∀ (lp : List (ℕ × Pos)) (acc : ScanAcc),
      (∀ ic ∈ lp, ic ∈ detected.enum) →
      acc.minDistSq ≤ REID_TOLERANCE ^ 2 →
      (∀ j, acc.bestIdx = some j → eligible V f k m t detected used j) →
      ∀ j, (lp.foldl (scanStep V f k m t used) acc).bestIdx = some j →
        eligible V f k m t detected used j := by
  intro lp
  induction lp with
  | nil => exact fun acc _ _ hs j hj => hs j hj
  | cons ic rest ih =>
    intro acc hsub hmin hs j hj
    refine ih (scanStep V f k m t used acc ic)
      (fun x hx => hsub x (List.mem_cons_of_mem _ hx)) ?_ ?_ j hj
    · unfold scanStep
      split
      · exact hmin
      · split
        · rename_i hcond
          exact le_of_lt (lt_of_lt_of_le hcond.1 hmin)
        · exact hmin
    · intro j' hj'
      unfold scanStep at hj'
      split at hj'
      · exact hs j' hj'
      · rename_i hni
        split at hj'
        · rename_i hcond
          cases hj'
          exact ⟨hni, ic, hsub ic (List.mem_cons_self _ _), rfl,
            lt_of_lt_of_le hcond.1 hmin, hcond.2.1⟩
        · exact hs j' hj'

theorem scanStep_none_inv (V : Vision Frame Mask Hist) (f : Frame) (k : Mask)
    (m : Minion Hist) (t : ℚ) (used : List ℕ) (acc : ScanAcc) (ic : ℕ × Pos)
    (hinv : acc.bestIdx = none → acc = ⟨none, REID_TOLERANCE ^ 2, 0⟩) :
    (scanStep V f k m t used acc ic).bestIdx = none →
      scanStep V f k m t used acc ic = ⟨none, REID_TOLERANCE ^ 2, 0⟩ := by
  unfold scanStep
  split
  · exact hinv
  · split
    · intro hn
      exact absurd hn (by simp)
    · exact hinv

theorem foldl_scanStep_finds (V : Vision Frame Mask Hist) (f : Frame) (k : Mask)
    (m : Minion Hist) (t : ℚ) (used : List ℕ) :
    ∀ (lp : List (ℕ × Pos)) (acc : ScanAcc),
      (acc.bestIdx = none → acc = ⟨none, REID_TOLERANCE ^ 2, 0⟩) →
      (∃ ic ∈ lp, ic.1 ∉ used ∧ effDistSq m t ic.2 < REID_TOLERANCE ^ 2 ∧
        HIST_SIMILARITY_THRESHOLD < similarity V m f k ic.2) →
      (lp.foldl (scanStep V f k m t used) acc).bestIdx.isSome = true := by
  intro lp
  induction lp with
  | nil =>
    rintro acc hinv ⟨ic, hic, _⟩
    exact absurd hic (List.not_mem_nil _)
  | cons ic0 rest ih =>
    rintro acc hinv ⟨ic, hic, hu, hd, hsim⟩
    rcases List.mem_cons.mp hic with rfl | hic'
    · cases hacc : acc.bestIdx with
      | some j =>
        exact foldl_scanStep_isSome V f k m t used rest _
          (scanStep_isSome V f k m t used acc ic (by simp [hacc]))
      | none =>
        rw [hinv hacc, List.foldl_cons]
        apply foldl_scanStep_isSome
        unfold scanStep
        rw [if_neg hu, if_pos ⟨hd, hsim, lt_trans (by norm_num [HIST_SIMILARITY_THRESHOLD]) hsim⟩]
        rfl
    · exact ih (scanStep V f k m t used acc ic0)
        (scanStep_none_inv V f k m t used acc ic0 hinv) ⟨ic, hic', hu, hd, hsim⟩

theorem findBestMatch_sound (V : Vision Frame Mask Hist) (f : Frame) (k : Mask)
    (m : Minion Hist) (t : ℚ) (detected : List Pos) (used : List ℕ) (j : ℕ)
    (hj : (findBestMatch V f k m t detected used).bestIdx = some j) :
    eligible V f k m t detected used j :=
  foldl_scanStep_sound V f k m t detected used detected.enum _
    (fun _ h => h) (le_refl _) (fun _ h => by cases h) j hj

theorem findBestMatch_complete (V : Vision Frame Mask Hist) (f : Frame) (k : Mask)
    (m : Minion Hist) (t : ℚ) (detected : List Pos) (used : List ℕ)
    (h : ∃ j, eligible V f k m t detected used j) :
    (findBestMatch V f k m t detected used).bestIdx ≠ none := by
  obtain ⟨j, hju, ic, hmem, hic1, hd, hs⟩ := h
  have hfind := foldl_scanStep_finds V f k m t used detected.enum _
    (fun _ => rfl) ⟨ic, hmem, by rw [hic1]; exact hju, hd, hs⟩
  exact Option.isSome_iff_ne_none.mp hfind

/-- C1 (amended): in the association scan of a currently-active track, a
candidate is selected only if it is eligible (unused, effective distance —
halved under a correct prediction — below the re-identification tolerance,
similarity above the floor), and some candidate is selected iff an eligible
one exists; the selection itself is the source's greedy scan in which a new
candidate must strictly beat the running best in BOTH effective distance and
similarity (not the maximum-similarity eligible candidate).  The two-track
scenario still holds: the equidistant candidate with similarity 0.6 to A and
0.2 to B (floor 0.3) associates to A only, updating A's history, while B
remains unmatched. -/
theorem C1_association_selection (V : Vision Frame Mask Hist) :
    (∀ (f : Frame) (k : Mask) (m : Minion Hist) (t : ℚ) (detected : List Pos)
        (used : List ℕ) (j : ℕ), m.active = true →
        (findBestMatch V f k m t detected used).bestIdx = some j →
        eligible V f k m t detected used j) ∧
    (∀ (f : Frame) (k : Mask) (m : Minion Hist) (t : ℚ) (detected : List Pos)
        (used : List ℕ), m.active = true →
        ((∃ j, eligible V f k m t detected used j) ↔
          (findBestMatch V f k m t detected used).bestIdx ≠ none)) ∧
    ((assocPass visAB () () [(15, 0)] 1 stateAB).2 = [0] ∧
      (assocPass visAB () () [(15, 0)] 1 stateAB).1.minions.map
          (fun im => (im.1, im.2.positions))
        = [(1, [(0, 0), (15, 0)]), (2, [(30, 0)])]) := by
  refine ⟨fun f k m t detected used j _ hj =>
      findBestMatch_sound V f k m t detected used j hj,
    fun f k m t detected used _ =>
      ⟨findBestMatch_complete V f k m t detected used,
       fun hne => ?_⟩, ?_, ?_⟩
  · cases hb : (findBestMatch V f k m t detected used).bestIdx with
    | none => exact absurd hb hne
    | some j => exact ⟨j, findBestMatch_sound V f k m t detected used j hb⟩
  · norm_num [assocPass, stateAB, minA, minB, mkTrack, findBestMatch, List.enum,
      List.enumFrom, scanStep, effDistSq, getPredictedPositionAtTime, lastPos,
      lastTs, distSq, similarity, visAB, REID_TOLERANCE, PREDICTION_TOLERANCE,
      HIST_SIMILARITY_THRESHOLD]
  · norm_num [assocPass, stateAB, minA, minB, mkTrack, findBestMatch, List.enum,
      List.enumFrom, scanStep, effDistSq, getPredictedPositionAtTime, lastPos,
      lastTs, distSq, similarity, visAB, REID_TOLERANCE, PREDICTION_TOLERANCE,
      HIST_SIMILARITY_THRESHOLD, up_positions, capPush]

/-- C1 counterexample to the claim as stated: with two candidates both
eligible for the same active track, the scan selects candidate 0 even though
candidate 1 has strictly higher appearance similarity — because candidate 1
is farther than the running best distance, the greedy guard rejects it. -/
theorem C1_argmax_counterexample :
    (findBestMatch visTwoCand () () cexMinion 0 [(10, 0), (20, 0)] []).bestIdx
        = some 0 ∧
    cexMinion.active = true ∧
    eligible visTwoCand () () cexMinion 0 [(10, 0), (20, 0)] [] 1 ∧
    similarity visTwoCand cexMinion () () (10, 0)
      < similarity visTwoCand cexMinion () () (20, 0) := by
  refine ⟨?_, rfl, ?_, ?_⟩
  · norm_num [findBestMatch, List.enum, List.enumFrom, scanStep, effDistSq,
      getPredictedPositionAtTime, cexMinion, mkTrack, lastPos, lastTs, distSq,
      similarity, visTwoCand, REID_TOLERANCE, PREDICTION_TOLERANCE,
      HIST_SIMILARITY_THRESHOLD]
  · refine ⟨by simp, ⟨1, (20, 0)⟩, by simp [List.enum, List.enumFrom], rfl, ?_, ?_⟩
    · norm_num [effDistSq, getPredictedPositionAtTime, cexMinion, mkTrack,
        lastPos, lastTs, distSq, REID_TOLERANCE, PREDICTION_TOLERANCE]
    · norm_num [similarity, visTwoCand, cexMinion, mkTrack,
        HIST_SIMILARITY_THRESHOLD]
  · norm_num [similarity, visTwoCand, cexMinion, mkTrack]

theorem C1_witness :
    minA.active = true ∧
    eligible visAB () () minA 1 [(15, 0)] [] 0 ∧
    ((∃ j, eligible visAB () () minA 1 [(15, 0)] [] j) ↔
      (findBestMatch visAB () () minA 1 [(15, 0)] []).bestIdx ≠ none) :=
  ⟨rfl,
   (C1_association_selection visAB).1 () () minA 1 [(15, 0)] [] 0 rfl
     (by norm_num [findBestMatch, List.enum, List.enumFrom, scanStep, effDistSq,
       getPredictedPositionAtTime, minA, mkTrack, lastPos, lastTs, distSq,
       similarity, visAB, REID_TOLERANCE, PREDICTION_TOLERANCE,
       HIST_SIMILARITY_THRESHOLD]),
   (C1_association_selection visAB).2.1 () () minA 1 [(15, 0)] [] rfl⟩

/-! ### Re-identification of inactive tracks -/

/-- C2: the association pass skips every inactive track
(`if not minion.active: continue`), so a track that was marked inactive by
the status pass — though retained until the re-identification window
elapses — is never re-identified, contrary to the claim.  Concretely: a
track created at (100, 100) at t = 0 is aged by an empty cycle at t = 5.5
(retained, inactive); at t = 6 a candidate at exactly (100, 100) with
perfect appearance similarity 1 is within every tolerance, yet the
association pass matches nothing and the cycle spawns a fresh track with a
new identifier instead. -/
theorem C2_inactive_track_never_reidentified :
    (stateReidAged.minions.map
        (fun im => (im.1, im.2.active, im.2.positions,
          similarity visPerfect im.2 () () (100, 100)))
      = [(1, false, [((100 : ℚ), (100 : ℚ))], 1)]) ∧
    distSq ((100 : ℚ), (100 : ℚ)) (100, 100) < REID_TOLERANCE ^ 2 ∧
    HIST_SIMILARITY_THRESHOLD < (1 : ℚ) ∧
    (assocPass visPerfect () () [(100, 100)] 6 stateReidAged).2 = [] ∧
    ((updateMinionTracking visPerfect [(100, 100)] () () 6 stateReidAged).minions.map
        (fun im => (im.1, im.2.positions, im.2.active))
      = [(1, [((100 : ℚ), (100 : ℚ))], false),
         (2, [((100 : ℚ), (100 : ℚ))], true)]) := by
  refine ⟨?_, ?_, ?_, ?_, ?_⟩
  · norm_num [stateReidAged, stateReid, updateMinionTracking, assocPass,
      createNewMinions, createAux, isMassSpawnEvent, updateMinionStatus,
      findBestMatch, List.enum, List.enumFrom, scanStep, similarity, visPerfect,
      Minion.init, lastPos, lastTs, MOVEMENT_MEMORY, REID_MAX_TIME]
  · norm_num [distSq, REID_TOLERANCE]
  · norm_num [HIST_SIMILARITY_THRESHOLD]
  · norm_num [stateReidAged, stateReid, updateMinionTracking, assocPass,
      createNewMinions, createAux, isMassSpawnEvent, updateMinionStatus,
      findBestMatch, List.enum, List.enumFrom, scanStep, similarity, visPerfect,
      Minion.init, lastPos, lastTs, MOVEMENT_MEMORY, REID_MAX_TIME]
  · norm_num [stateReidAged, stateReid, updateMinionTracking, assocPass,
      createNewMinions, createAux, isMassSpawnEvent, updateMinionStatus,
      findBestMatch, List.enum, List.enumFrom, scanStep, similarity, visPerfect,
      Minion.init, lastPos, lastTs, capPush, MOVEMENT_MEMORY, REID_MAX_TIME,
      MASS_SPAWN_THRESHOLD, FRAME_WIDTH, FRAME_HEIGHT]

end MM
